import Mathlib

/-!
Verification development for the `flame` face-reconstruction repository.

The development shallowly embeds the numeric core of `src/flame/utils.py`
(vertex_normals, load_obj, upsample_mesh) and `src/flame/deca/recon.py`
(DecaReconModel._decompose_params and the geometric transform chain and
instance-state effects of DecaReconModel._encode / _decode) over exact
rational arithmetic.  Machine floats are modelled by `ℚ`; the square root
used by vector-norm computations (np.linalg.norm, torch's F.normalize) is
an explicit function parameter `sqrtQ : ℚ → ℚ`, since exact square roots
do not exist in `ℚ`.  Division in `ℚ` is total (x / 0 = 0), so statements
about IEEE NaN/Inf are expressed as statements about the divisor being
zero or provably nonzero.
-/

/-- Square rational matrices of size 4, the type of the 4x4 transform
matrices built in `DecaReconModel._decode`. -/
abbrev Mat4 := Matrix (Fin 4) (Fin 4) ℚ

/-- Square rational matrices of size 3, the type of the crop transform
`tform` and of rotation matrices. -/
abbrev Mat3 := Matrix (Fin 3) (Fin 3) ℚ

/-- Points and vectors in 3-space, as used for mesh vertices and normals. -/
abbrev Vec3 := ℚ × ℚ × ℚ

/-- Euclidean inner product on `Vec3`; `np.linalg.norm x = sqrt (dotQ x x)`. -/
def dotQ (a b : Vec3) : ℚ :=
  a.1 * b.1 + a.2.1 * b.2.1 + a.2.2 * b.2.2

/-- Cross product on `Vec3`, the embedding of `torch.cross` on 3-vectors. -/
def crossQ (a b : Vec3) : Vec3 :=
  (a.2.1 * b.2.2 - a.2.2 * b.2.1,
   a.2.2 * b.1 - a.1 * b.2.2,
   a.1 * b.2.1 - a.2.1 * b.1)

/-- Embedding of `np.linalg.inv` on 4x4 matrices: for an invertible input it
is the matrix inverse (see `npInv_mul_self`); `np.linalg.inv` raises on a
singular input, which the callers embedded here never hit. -/
def npInv (M : Mat4) : Mat4 := M.det⁻¹ • M.adjugate

/- ------------------------------------------------------------------
src/flame/utils.py, vertex_normals (lines 17-41)
------------------------------------------------------------------ -/

/-- Element lookup in a vertex list, with numpy-style 0 default kept total. -/
def vget (v : List Vec3) (i : ℕ) : Vec3 := v.getD i (0, 0, 0)

/-- Pointwise accumulation into a normals buffer, the embedding of one
`index_add_` contribution at index `k`. -/
def addAt (buf : ℕ → Vec3) (k : ℕ) (x : Vec3) : ℕ → Vec3 :=
  fun j => if j = k then buf j + x else buf j

/-- Accumulated (unnormalized) per-vertex normals of `vertex_normals`
(batch size 1): three `index_add_` passes over the face list, adding the
face cross products at the face's second, third and first vertex index,
exactly as in `src/flame/utils.py` lines 35-37. -/
def accumNormals (v : List Vec3) (f : List (ℕ × ℕ × ℕ)) : ℕ → Vec3 :=
  let b0 : ℕ → Vec3 := fun _ => (0, 0, 0)
  let b1 := f.foldl (fun buf face =>
    addAt buf face.2.1
      (crossQ (vget v face.2.2 - vget v face.2.1) (vget v face.1 - vget v face.2.1))) b0
  let b2 := f.foldl (fun buf face =>
    addAt buf face.2.2
      (crossQ (vget v face.1 - vget v face.2.2) (vget v face.2.1 - vget v face.2.2))) b1
  f.foldl (fun buf face =>
    addAt buf face.1
      (crossQ (vget v face.2.1 - vget v face.1) (vget v face.2.2 - vget v face.1))) b2

/-- Divisor used by `F.normalize(normals, eps=1e-6, dim=1)`: the norm of
`x` clamped below at `1e-6`.  `sqrtQ` stands for the float square root, so
`sqrtQ (dotQ x x)` is `np`/torch's 2-norm of `x`. -/
def normalizeDenom (sqrtQ : ℚ → ℚ) (x : Vec3) : ℚ :=
  max (sqrtQ (dotQ x x)) (1 / 1000000)

/-- Embedding of `vertex_normals` (batch size 1): accumulate face cross
products per vertex, then divide each accumulated vector by its norm
clamped below at `eps = 1e-6`. -/
def vertex_normals (sqrtQ : ℚ → ℚ) (v : List Vec3) (f : List (ℕ × ℕ × ℕ)) : List Vec3 :=
  (List.range v.length).map fun i =>
    (1 / normalizeDenom sqrtQ (accumNormals v f i)) • accumNormals v f i

/- ------------------------------------------------------------------
src/flame/utils.py, load_obj (lines 44-90)
------------------------------------------------------------------ -/

/-- One already-tokenized line of an OBJ file.  For `v `/`vt ` lines,
`coords` holds the numeric values of all tokens after the prefix and `raw`
the original line text; every other kind of line (faces, comments, ...) is
`other`, since only the vertex/texture arity checks are modelled. -/
inductive ObjLine where
  | vline (coords : List ℚ) (raw : String)
  | vtline (coords : List ℚ) (raw : String)
  | other

/-- Error text raised for a vertex line of wrong arity; it carries the
offending line content, as in `utils.py` lines 61-62. -/
def vertexErrMsg (raw : String) : String :=
  "Vertex does not have 3 values. Line: " ++ raw

/-- Error text raised for a texture line of wrong arity; it carries the
offending line content, as in `utils.py` lines 67-69. -/
def textureErrMsg (raw : String) : String :=
  "Texture does not have 2 values. Line: " ++ raw

/-- Embedding of the line loop of `load_obj`: a `v ` line keeps
`tokens[1:4]` (the first three coordinate values) and errors iff that
slice does not have exactly 3 entries; a `vt ` line keeps `tokens[1:3]`
and errors iff that slice does not have exactly 2 entries.  Returns the
accumulated vertex and uv lists. -/
def load_obj_lines : List ObjLine → Except String (List (List ℚ) × List (List ℚ))
  | [] => Except.ok ([], [])
  | ObjLine.vline coords raw :: rest =>
    let vert := coords.take 3
    if vert.length ≠ 3 then Except.error (vertexErrMsg raw)
    else
      match load_obj_lines rest with
      | Except.ok (vs, ts) => Except.ok (vert :: vs, ts)
      | Except.error e => Except.error e
  | ObjLine.vtline coords raw :: rest =>
    let tx := coords.take 2
    if tx.length ≠ 2 then Except.error (textureErrMsg raw)
    else
      match load_obj_lines rest with
      | Except.ok (vs, ts) => Except.ok (vs, tx :: ts)
      | Except.error e => Except.error e
  | ObjLine.other :: rest => load_obj_lines rest

/- ------------------------------------------------------------------
src/flame/utils.py, upsample_mesh (lines 93-114)
------------------------------------------------------------------ -/

/-- Static dense-template lookup data, the embedding of the keys of the
`dense_template` dict read by `upsample_mesh`: `validPixel3dFaces` and
`validPixelBCoords` have one row per valid pixel, while `xCoords` and
`yCoords` are indexed through `validPixelIds`. -/
structure DenseTemplate where
  xCoords : List ℕ
  yCoords : List ℕ
  validPixelIds : List ℕ
  validPixel3dFaces : List (ℕ × ℕ × ℕ)
  validPixelBCoords : List (ℚ × ℚ × ℚ)

/-- Barycentric interpolation at valid pixel `i`: the weighted sum of the
three rows of `arr` indexed by the pixel's enclosing triangle, with the
pixel's barycentric weights (`utils.py` lines 101-107, one row of the
vectorized expression). -/
def baryInterp (arr : List Vec3) (t : DenseTemplate) (i : ℕ) : Vec3 :=
  let f := t.validPixel3dFaces.getD i (0, 0, 0)
  let w := t.validPixelBCoords.getD i (0, 0, 0)
  w.1 • vget arr f.1 + w.2.1 • vget arr f.2.1 + w.2.2 • vget arr f.2.2

/-- Squared 2-norm of the interpolated normal at valid pixel `i`; the code
divides by its square root (`np.linalg.norm`) with no epsilon guard
(`utils.py` line 109). -/
def upsample_norm_sq (normals : List Vec3) (t : DenseTemplate) (i : ℕ) : ℚ :=
  dotQ (baryInterp normals t i) (baryInterp normals t i)

/-- Displacement scalar for valid pixel `i`: the displacement map entry at
row `y_coords[valid_pixel_ids[i]]`, column `x_coords[valid_pixel_ids[i]]`
(`utils.py` line 110). -/
def dispAt (dispMap : List (List ℚ)) (t : DenseTemplate) (i : ℕ) : ℚ :=
  (dispMap.getD (t.yCoords.getD (t.validPixelIds.getD i 0) 0) []).getD
    (t.xCoords.getD (t.validPixelIds.getD i 0) 0) 0

/-- Embedding of `upsample_mesh` (single mesh): one output vertex per row
of the template's valid-pixel arrays, equal to the barycentrically
interpolated position plus the displacement scalar times the interpolated
normal divided by its (unguarded) norm. -/
def upsample_mesh (sqrtQ : ℚ → ℚ) (v normals : List Vec3)
    (dispMap : List (List ℚ)) (t : DenseTemplate) : List Vec3 :=
  (List.range t.validPixel3dFaces.length).map fun i =>
    let p := baryInterp v t i
    let nn := (1 / sqrtQ (upsample_norm_sq normals t i)) • baryInterp normals t i
    p + dispAt dispMap t i • nn

/- ------------------------------------------------------------------
src/flame/deca/recon.py, DecaReconModel._decompose_params (lines 205-219)
------------------------------------------------------------------ -/

/-- The ordered parameter-group size table `self.param_dict` set in
`_create_submodels` (recon.py lines 104-111). -/
def param_dict : List (String × ℕ) :=
  [("n_shape", 100), ("n_tex", 50), ("n_exp", 50), ("n_pose", 6), ("n_cam", 3), ("n_light", 27)]

/-- Group-name trimming `key[2:]` of `_decompose_params`. -/
def trimKey (s : String) : String := s.drop 2

/-- Embedding of `_decompose_params` before the light reshape (single
batch row): walk the group table in declaration order, keeping a running
offset `start`, and slice `parameters[start:end]` for each group. -/
def decompose_flat {α : Type} (params : List α) : List (String × List α) :=
  (param_dict.foldl
    (fun (acc : List (String × List α) × ℕ) kv =>
      let key := trimKey kv.1
      let stop := acc.2 + kv.2
      (acc.1 ++ [(key, (params.drop acc.2).take kv.2)], stop))
    ([], 0)).1

/-- Row-major regrouping of a flat list into rows of three, the embedding
of `.reshape(batch, 9, 3)` applied to the light group (single batch row). -/
def chunks3 {α : Type} : List α → List (List α)
  | [] => []
  | a :: b :: c :: rest => [a, b, c] :: chunks3 rest
  | l => [l]

/- ------------------------------------------------------------------
src/flame/deca/recon.py, DecaReconModel._decode transform chain
(lines 284-336)
------------------------------------------------------------------ -/

/-- Embedding of the matrix chain of `_decode` (recon.py lines 284-324),
parameterized by the three builder functions imported from
`flame.transforms` (not under src), by the crop transform `tform`, the
original image size, and the camera parameter vector
`cam = (sc, tx, ty)`.  The fixed crop size is `(224, 224)`. -/
def decode_matrix (createOrthoM createViewportM : ℕ → ℕ → Mat4)
    (cropTo3dM : Mat3 → Mat4) (tform : Mat3) (imgSize : ℕ × ℕ)
    (cam : ℚ × ℚ × ℚ) : Mat4 :=
  let tx := cam.2.1
  let ty := cam.2.2
  let T : Mat4 := !![1, 0, 0, tx; 0, 1, 0, ty; 0, 0, 1, 0; 0, 0, 0, 1]
  let sc := cam.1
  let S : Mat4 := !![sc, 0, 0, 0; 0, sc, 0, 0; 0, 0, sc, 0; 0, 0, 0, 1]
  let OP := createOrthoM 224 224
  let VP := createViewportM 224 224
  let CP := cropTo3dM tform
  let VPb := createViewportM imgSize.1 imgSize.2
  let OPb := createOrthoM imgSize.1 imgSize.2
  let pose := S * T
  let forward := npInv CP * VP * OP
  let backward := npInv (VPb * OPb)
  backward * forward * pose

/-- Translation matrix as the specification words it: the identity matrix
carrying `tx` at entry (0,3) and `ty` at entry (1,3) and zero
z-translation. -/
def Tspec (tx ty : ℚ) : Mat4 :=
  Matrix.of fun i j =>
    if i.val = j.val then 1
    else if i.val = 0 ∧ j.val = 3 then tx
    else if i.val = 1 ∧ j.val = 3 then ty
    else 0

/-- Scale matrix as the specification words it: uniform scale `sc` on the
three spatial diagonal entries with identity homogeneous row. -/
def Sspec (sc : ℚ) : Mat4 :=
  Matrix.of fun i j =>
    if i.val = j.val then (if i.val = 3 then 1 else sc) else 0

/-- Forward transform of the chain: `inverse(CP) · VP · OP`. -/
def forward_spec (CP VP OP : Mat4) : Mat4 := npInv CP * VP * OP

/-- Backward transform of the chain: `inverse(VPb · OPb)`. -/
def backward_spec (VPb OPb : Mat4) : Mat4 := npInv (VPb * OPb)

/-- Homogeneous lift of a vertex: `np.c_[v, 1]`, one row of recon.py
line 327. -/
def homRow (p : Vec3) : Fin 4 → ℚ := ![p.1, p.2.1, p.2.2, 1]

/-- Embedding of `np.c_[v, ones] @ mat.T` followed by `v[:, :3]`
(recon.py lines 327-328): each output row `j` entry is
`sum_k hom(p)_k * mat[j, k]`, and only the three spatial rows are kept. -/
def apply_full (mat : Mat4) (v : List Vec3) : List Vec3 :=
  v.map fun p =>
    (∑ k : Fin 4, homRow p k * mat 0 k,
     ∑ k : Fin 4, homRow p k * mat 1 k,
     ∑ k : Fin 4, homRow p k * mat 2 k)

/-- Arithmetic mean of a list of matrices, the embedding of
`R.mean(axis=0)` (recon.py line 276): the sum divided by the count. -/
def matMean (Rs : List Mat4) : Mat4 :=
  ((Rs.length : ℚ))⁻¹ • Rs.foldr (· + ·) 0

/-- First three components of a 4-vector, the trim of recon.py line 328. -/
def trunc4 (w : Fin 4 → ℚ) : Vec3 := (w 0, w 1, w 2)

/-- Embedding of the value-level tail of `_decode` (recon.py lines
272-336): build the full matrix, apply it to the homogeneously lifted
vertices, and return the vertices together with
`full_matrix @ mean(R)`. -/
def decode_vr (createOrthoM createViewportM : ℕ → ℕ → Mat4)
    (cropTo3dM : Mat3 → Mat4) (tform : Mat3) (imgSize : ℕ × ℕ)
    (cam : ℚ × ℚ × ℚ) (v : List Vec3) (Rs : List Mat4) : List Vec3 × Mat4 :=
  let mat := decode_matrix createOrthoM createViewportM cropTo3dM tform imgSize cam
  (apply_full mat v, mat * matMean Rs)

/- ------------------------------------------------------------------
src/flame/deca/recon.py, instance-state effects of __call__
(_encode lines 174-177, _decode lines 292-298)
------------------------------------------------------------------ -/

/-- Mutable-and-immutable instance state of `DecaReconModel` touched or
read by a reconstruction call. -/
structure ReconState where
  name : String
  device : String
  dense : Bool
  cropImgSize : ℕ × ℕ
  imgSize : Option (ℕ × ℕ)
  warnedTform : Bool
  tform : Option Mat3

/-- State effect of `_encode` (recon.py lines 174-177): when `img_size`
is `None`, set it to the current image's trailing shape dimensions
`image.shape[2:]`; otherwise leave the state unchanged. -/
def encode_step (s : ReconState) (imageShape : ℕ × ℕ) : ReconState :=
  if s.imgSize.isNone then { s with imgSize := some imageShape } else s

/-- State effect of `_decode` (recon.py lines 292-298): when `tform` is
`None`, set the one-shot warning flag (if not yet set) and then assign
`self.tform = np.eye(3)`; otherwise leave the state unchanged. -/
def decode_state_step (s : ReconState) : ReconState :=
  if s.tform.isNone then
    let s1 := if s.warnedTform = false then { s with warnedTform := true } else s
    { s1 with tform := some (1 : Mat3) }
  else s

/-- State effect of one full `__call__`: `_encode` then `_decode`. -/
def call_step (s : ReconState) (imageShape : ℕ × ℕ) : ReconState :=
  decode_state_step (encode_step s imageShape)

/- ------------------------------------------------------------------
Modelled transform builders (flame/transforms.py is not under src)
------------------------------------------------------------------ -/

/-- Modelled from the spec: `create_ortho_matrix` of `flame.transforms` is
not under src; the spec describes it as the forward orthographic
projection mapping world space to NDC, parameterized by an image size.
We model the standard orthographic projection of the box with x in
[0, w], y in [0, h] (no y flip, per the spec's design note) and z in
[-1, 1]. -/
def create_ortho_matrix_m (w h : ℕ) : Mat4 :=
  !![2 / (w : ℚ), 0, 0, -1;
     0, 2 / (h : ℚ), 0, -1;
     0, 0, -1, 0;
     0, 0, 0, 1]

/-- Modelled from the spec: `create_viewport_matrix` of `flame.transforms`
is not under src; the spec describes it as the viewport transform mapping
NDC to raster coordinates of a `w` by `h` image.  We model the standard
viewport transform onto [0, w] x [0, h] with depth mapped to [0, 1] and
no y flip. -/
def create_viewport_matrix_m (w h : ℕ) : Mat4 :=
  !![(w : ℚ) / 2, 0, 0, (w : ℚ) / 2;
     0, (h : ℚ) / 2, 0, (h : ℚ) / 2;
     0, 0, 1 / 2, 1 / 2;
     0, 0, 0, 1]

/-- Modelled from the spec: `crop_matrix_to_3d` of `flame.transforms` is
not under src; the spec describes it as the promotion of the 3x3
raster-space crop similarity into a 4x4 embedding usable in the chain.
We model the standard lift acting on x, y and the homogeneous coordinate
and leaving z unchanged. -/
def crop_matrix_to_3d_m (m : Mat3) : Mat4 :=
  !![m 0 0, m 0 1, 0, m 0 2;
     m 1 0, m 1 1, 0, m 1 2;
     0, 0, 1, 0;
     m 2 0, m 2 1, 0, m 2 2]

/- ------------------------------------------------------------------
Concrete instances used by counterexamples and witnesses
------------------------------------------------------------------ -/

/-- Normals list with two opposite unit normals, used to exhibit a
zero-norm interpolated normal in `upsample_mesh`. -/
def normals3 : List Vec3 := [(1, 0, 0), (-1, 0, 0), (0, 0, 1)]

/-- One-valid-pixel template whose barycentric weights average the two
opposite normals of `normals3`. -/
def tmpl3 : DenseTemplate :=
  { xCoords := [0], yCoords := [0], validPixelIds := [0],
    validPixel3dFaces := [(0, 1, 2)], validPixelBCoords := [(1/2, 1/2, 0)] }

/-- Model state as freshly constructed with neither `img_size` nor `tform`
supplied. -/
def freshState : ReconState :=
  { name := "emoca-coarse", device := "cpu", dense := false,
    cropImgSize := (224, 224), imgSize := none, warnedTform := false,
    tform := none }

/-- Model state for a model whose `img_size` and `tform` have both been
set (either at construction or by a previous call). -/
def setState : ReconState :=
  { name := "deca-dense", device := "cpu", dense := true,
    cropImgSize := (224, 224), imgSize := some (224, 224),
    warnedTform := true, tform := some 1 }

/- ==================================================================
Theorems
================================================================== -/

/-- Shared helper: on an input with nonzero determinant, `npInv` is a left
inverse, matching `np.linalg.inv`. -/
theorem npInv_mul_self (M : Mat4) (h : M.det ≠ 0) : npInv M * M = 1 := by
  unfold npInv
  rw [Matrix.smul_mul, Matrix.adjugate_mul, smul_smul, inv_mul_cancel₀ h, one_smul]

/-- Shared helper: the translation-matrix literal of `_decode` equals the
entrywise description used by the specification. -/
theorem T_lit_eq (tx ty : ℚ) :
    (!![1, 0, 0, tx; 0, 1, 0, ty; 0, 0, 1, 0; 0, 0, 0, 1] : Mat4) = Tspec tx ty := by
  ext i j
  fin_cases i <;> fin_cases j <;> rfl

/-- Shared helper: the scale-matrix literal of `_decode` equals the
entrywise description used by the specification. -/
theorem S_lit_eq (sc : ℚ) :
    (!![sc, 0, 0, 0; 0, sc, 0, 0; 0, 0, sc, 0; 0, 0, 0, 1] : Mat4) = Sspec sc := by
  ext i j
  fin_cases i <;> fin_cases j <;> rfl

/-- C1: for every camera vector `(sc, tx, ty)`, crop transform, image
size and transform builders, the combined matrix computed by `_decode`
equals `backward * forward * pose` with `pose = S * T`, `T` the identity
carrying `tx` at (0,3) and `ty` at (1,3) and no z-translation, `S` the
uniform scale with identity homogeneous row, `forward = inverse(CP) * VP
* OP` built from the fixed 224x224 crop size with `CP` the lifted crop
matrix, and `backward = inverse(VPb * OPb)` built from the original image
size. -/
theorem decode_matrix_eq_chain (co cv : ℕ → ℕ → Mat4) (c3 : Mat3 → Mat4)
    (tf : Mat3) (isz : ℕ × ℕ) (cam : ℚ × ℚ × ℚ) :
    decode_matrix co cv c3 tf isz cam =
      backward_spec (cv isz.1 isz.2) (co isz.1 isz.2) *
        forward_spec (c3 tf) (cv 224 224) (co 224 224) *
        (Sspec cam.1 * Tspec cam.2.1 cam.2.2) := by
  simp only [decode_matrix, forward_spec, backward_spec, T_lit_eq, S_lit_eq]

/-- C4: the reprojector lifts each vertex to homogeneous coordinates,
right-multiplies by the transpose of the full matrix and drops the fourth
coordinate — so row `i` of the result is the first three components of
`full_matrix ⬝ (vᵢ, 1)` — the output has one 3-component row per input
vertex, and the returned matrix is `full_matrix * R` with `R` the
arithmetic mean of the per-vertex rotation matrices. -/
theorem decode_apply_and_rotation (co cv : ℕ → ℕ → Mat4) (c3 : Mat3 → Mat4)
    (tf : Mat3) (isz : ℕ × ℕ) (cam : ℚ × ℚ × ℚ) (v : List Vec3)
    (Rs : List Mat4) :
    (decode_vr co cv c3 tf isz cam v Rs).1 =
      v.map (fun p =>
        trunc4 ((decode_matrix co cv c3 tf isz cam).mulVec (homRow p))) ∧
    (decode_vr co cv c3 tf isz cam v Rs).1.length = v.length ∧
    (decode_vr co cv c3 tf isz cam v Rs).2 =
      decode_matrix co cv c3 tf isz cam * matMean Rs := by
  refine ⟨?_, by simp [decode_vr, apply_full], rfl⟩
  simp only [decode_vr, apply_full]
  refine List.map_congr_left fun p _ => ?_
  simp [trunc4, Matrix.mulVec, Matrix.dotProduct, mul_comm]

/-- Shared helper: indexing a mapped range. -/
theorem range_map_getD {α : Type} (g : ℕ → α) (n i : ℕ) (d : α) (h : i < n) :
    ((List.range n).map g).getD i d = g i := by
  rw [List.getD_eq_getElem _ _ (by simpa using h)]
  simp

/-- Shared helper: regrouping a list of length `3 * k` into rows of three
yields `k` rows, each of length 3, and flattening restores the input. -/
theorem chunks3_structure {α : Type} :
    ∀ (k : ℕ) (l : List α), l.length = 3 * k →
      (chunks3 l).length = k ∧ (∀ r ∈ chunks3 l, r.length = 3) ∧
        (chunks3 l).flatten = l := by
  intro k
  induction k with
  | zero =>
    intro l hl
    have : l = [] := List.eq_nil_of_length_eq_zero (by omega)
    subst this
    exact ⟨rfl, by intro r hr; simp [chunks3] at hr, rfl⟩
  | succ n ih =>
    intro l hl
    rcases l with _ | ⟨a, _ | ⟨b, _ | ⟨c, rest⟩⟩⟩
    · simp only [List.length_nil] at hl; omega
    · simp only [List.length_cons, List.length_nil] at hl; omega
    · simp only [List.length_cons, List.length_nil] at hl; omega
    · have hr : rest.length = 3 * n := by
        simp only [List.length_cons] at hl; omega
      obtain ⟨h1, h2, h3⟩ := ih rest hr
      refine ⟨by simp [chunks3, h1], ?_, by simp [chunks3, h3]⟩
      intro r hrm
      simp only [chunks3, List.mem_cons] at hrm
      rcases hrm with h | h
      · subst h; rfl
      · exact h2 r h

/-- C6: decomposing a coefficient vector built by concatenating blocks of
the declared sizes (shape 100, tex 50, exp 50, pose 6, cam 3, light 27)
in declaration order returns exactly those blocks under the trimmed group
names, in order, with cumulative offsets leaving no gaps and no overlaps;
and the 27-element light block reshapes losslessly into 9 rows of 3. -/
theorem decompose_params_roundtrip (s t e p c l : List ℚ)
    (hs : s.length = 100) (ht : t.length = 50) (he : e.length = 50)
    (hp : p.length = 6) (hc : c.length = 3) (hl : l.length = 27) :
    decompose_flat (s ++ (t ++ (e ++ (p ++ (c ++ l))))) =
      [("shape", s), ("tex", t), ("exp", e), ("pose", p), ("cam", c), ("light", l)] ∧
    (chunks3 l).length = 9 ∧ (∀ r ∈ chunks3 l, r.length = 3) ∧
    (chunks3 l).flatten = l := by
  have hch := chunks3_structure 9 l (by omega)
  refine ⟨?_, hch.1, hch.2.1, hch.2.2⟩
  have hfold : decompose_flat (s ++ (t ++ (e ++ (p ++ (c ++ l))))) =
      [("shape", (s ++ (t ++ (e ++ (p ++ (c ++ l))))).take 100),
       ("tex", ((s ++ (t ++ (e ++ (p ++ (c ++ l))))).drop 100).take 50),
       ("exp", ((s ++ (t ++ (e ++ (p ++ (c ++ l))))).drop 150).take 50),
       ("pose", ((s ++ (t ++ (e ++ (p ++ (c ++ l))))).drop 200).take 6),
       ("cam", ((s ++ (t ++ (e ++ (p ++ (c ++ l))))).drop 206).take 3),
       ("light", ((s ++ (t ++ (e ++ (p ++ (c ++ l))))).drop 209).take 27)] := rfl
  have d100 : (s ++ (t ++ (e ++ (p ++ (c ++ l))))).drop 100 =
      t ++ (e ++ (p ++ (c ++ l))) := List.drop_left' hs
  have d150 : (s ++ (t ++ (e ++ (p ++ (c ++ l))))).drop 150 =
      e ++ (p ++ (c ++ l)) := by
    have h2 := List.drop_drop 50 100 (s ++ (t ++ (e ++ (p ++ (c ++ l)))))
    rw [show (50 : ℕ) + 100 = 150 by rfl] at h2
    rw [← h2, d100]
    exact List.drop_left' ht
  have d200 : (s ++ (t ++ (e ++ (p ++ (c ++ l))))).drop 200 = p ++ (c ++ l) := by
    have h2 := List.drop_drop 50 150 (s ++ (t ++ (e ++ (p ++ (c ++ l)))))
    rw [show (50 : ℕ) + 150 = 200 by rfl] at h2
    rw [← h2, d150]
    exact List.drop_left' he
  have d206 : (s ++ (t ++ (e ++ (p ++ (c ++ l))))).drop 206 = c ++ l := by
    have h2 := List.drop_drop 6 200 (s ++ (t ++ (e ++ (p ++ (c ++ l)))))
    rw [show (6 : ℕ) + 200 = 206 by rfl] at h2
    rw [← h2, d200]
    exact List.drop_left' hp
  have d209 : (s ++ (t ++ (e ++ (p ++ (c ++ l))))).drop 209 = l := by
    have h2 := List.drop_drop 3 206 (s ++ (t ++ (e ++ (p ++ (c ++ l)))))
    rw [show (3 : ℕ) + 206 = 209 by rfl] at h2
    rw [← h2, d206]
    exact List.drop_left' hc
  rw [hfold, List.take_left' hs, d100, List.take_left' ht, d150,
    List.take_left' he, d200, List.take_left' hp, d206, List.take_left' hc,
    d209, ← hl, List.take_length]

/-- C6 witness: the round trip at a concrete coefficient vector. -/
theorem decompose_params_roundtrip_witness :
    decompose_flat (List.replicate 100 (0 : ℚ) ++ (List.replicate 50 (1 : ℚ) ++
        (List.replicate 50 (2 : ℚ) ++ (List.replicate 6 (3 : ℚ) ++
          (List.replicate 3 (4 : ℚ) ++ List.replicate 27 (5 : ℚ)))))) =
      [("shape", List.replicate 100 (0 : ℚ)), ("tex", List.replicate 50 (1 : ℚ)),
       ("exp", List.replicate 50 (2 : ℚ)), ("pose", List.replicate 6 (3 : ℚ)),
       ("cam", List.replicate 3 (4 : ℚ)), ("light", List.replicate 27 (5 : ℚ))] ∧
    (chunks3 (List.replicate 27 (5 : ℚ))).length = 9 ∧
    (∀ r ∈ chunks3 (List.replicate 27 (5 : ℚ)), r.length = 3) ∧
    (chunks3 (List.replicate 27 (5 : ℚ))).flatten = List.replicate 27 (5 : ℚ) :=
  decompose_params_roundtrip _ _ _ _ _ _ (by simp) (by simp) (by simp)
    (by simp) (by simp) (by simp)

/-- C7: with the identity crop transform and the original image size equal
to the fixed 224x224 crop size, the modelled backward transform composed
with the modelled forward transform is exactly the 4x4 identity. -/
theorem identity_reprojection :
    backward_spec (create_viewport_matrix_m 224 224) (create_ortho_matrix_m 224 224) *
      forward_spec (crop_matrix_to_3d_m 1) (create_viewport_matrix_m 224 224)
        (create_ortho_matrix_m 224 224) = 1 := by
  have hCP : crop_matrix_to_3d_m 1 = 1 := by
    ext i j
    fin_cases i <;> fin_cases j <;> rfl
  have hM : create_viewport_matrix_m 224 224 * create_ortho_matrix_m 224 224 =
      !![1, 0, 0, 0; 0, 1, 0, 0; 0, 0, -1/2, 1/2; 0, 0, 0, 1] := by
    ext i j
    fin_cases i <;> fin_cases j <;>
      norm_num [create_viewport_matrix_m, create_ortho_matrix_m, Matrix.mul_apply,
        Fin.sum_univ_four, Matrix.vecHead, Matrix.vecTail]
  have hdet : (create_viewport_matrix_m 224 224 * create_ortho_matrix_m 224 224).det ≠ 0 := by
    rw [hM]
    norm_num [Matrix.det_succ_row_zero, Fin.sum_univ_succ, Matrix.vecHead, Matrix.vecTail]
  have hinv1 : npInv (1 : Mat4) = 1 := by
    simp [npInv, Matrix.det_one, Matrix.adjugate_one]
  unfold backward_spec forward_spec
  rw [hCP, hinv1, one_mul]
  exact npInv_mul_self _ hdet

/-- C5 counterexample: a reconstruction call on a model whose `tform` is
unset does mutate the caller-visible `tform` attribute (it is assigned the
3x3 identity), refuting the claim that `tform` is left unchanged by every
call. -/
theorem call_mutates_tform :
    (call_step freshState (224, 224)).tform ≠ freshState.tform := by
  simp [call_step, encode_step, decode_state_step, freshState]

/-- C5 (amended): a reconstruction call leaves the immutable attributes
unchanged and mutates at most `img_size`, the one-shot warning flag, and
`tform`; `tform` is mutated only when it was unset, in which case it is
assigned the 3x3 identity, and is left unchanged whenever it was set. -/
theorem call_state_effects (s : ReconState) (shape : ℕ × ℕ) :
    (call_step s shape).name = s.name ∧
    (call_step s shape).device = s.device ∧
    (call_step s shape).dense = s.dense ∧
    (call_step s shape).cropImgSize = s.cropImgSize ∧
    (∀ M, s.tform = some M → (call_step s shape).tform = some M) ∧
    (s.tform = none → (call_step s shape).tform = some 1) := by
  unfold call_step encode_step decode_state_step
  rcases s with ⟨n, d, de, cs, is, w, tf⟩
  cases is <;> cases tf <;> cases w <;> simp

/-- C5 witness: on a model whose `tform` was already set, a call leaves it
unchanged. -/
theorem call_state_effects_witness :
    (call_step setState (512, 512)).tform = some 1 :=
  (call_state_effects setState (512, 512)).2.2.2.2.1 1 rfl

/-- C8: constructing without `img_size` and calling once with a 224x224
image stores `img_size = (224, 224)`, and once `img_size` is set no
subsequent call changes it, whatever the size of the later image. -/
theorem img_size_set_once :
    (call_step freshState (224, 224)).imgSize = some (224, 224) ∧
    ∀ (s : ReconState) (sz shape : ℕ × ℕ), s.imgSize = some sz →
      (call_step s shape).imgSize = some sz := by
  constructor
  · simp [call_step, encode_step, decode_state_step, freshState]
  · intro s sz shape h
    rcases s with ⟨n, d, de, cs, is, w, tf⟩
    cases tf <;> cases w <;> simp_all [call_step, encode_step, decode_state_step]

/-- C8 witness: a later call with a differently sized image does not
change the stored image size. -/
theorem img_size_set_once_witness :
    (call_step setState (512, 512)).imgSize = some (224, 224) :=
  img_size_set_once.2 setState (224, 224) (512, 512) rfl

/-- C2: `upsample_mesh` produces exactly one output vertex per valid
pixel of the template, in the template's valid-pixel order, and each
output vertex is the barycentric interpolation of the enclosing
triangle's vertices plus the displacement read at the pixel's
(row, column) times the norm-divided interpolated normal; pixels not
flagged valid contribute no entry. -/
theorem upsample_mesh_valid_pixels (sqrtQ : ℚ → ℚ) (v normals : List Vec3)
    (dispMap : List (List ℚ)) (t : DenseTemplate)
    (hf : t.validPixel3dFaces.length = t.validPixelIds.length) :
    (upsample_mesh sqrtQ v normals dispMap t).length = t.validPixelIds.length ∧
    ∀ i, i < t.validPixelIds.length →
      (upsample_mesh sqrtQ v normals dispMap t).getD i (0, 0, 0) =
        baryInterp v t i +
          dispAt dispMap t i •
            ((1 / sqrtQ (upsample_norm_sq normals t i)) • baryInterp normals t i) := by
  constructor
  · simp [upsample_mesh, hf]
  · intro i hi
    unfold upsample_mesh
    rw [range_map_getD _ _ _ _ (by rw [hf]; exact hi)]

/-- C2 witness: the upsampler at a concrete one-valid-pixel template. -/
theorem upsample_mesh_valid_pixels_witness :
    (upsample_mesh id normals3 normals3 [[0]] tmpl3).length = 1 ∧
    (upsample_mesh id normals3 normals3 [[0]] tmpl3).getD 0 (0, 0, 0) =
      baryInterp normals3 tmpl3 0 +
        dispAt [[0]] tmpl3 0 •
          ((1 / id (upsample_norm_sq normals3 tmpl3 0)) • baryInterp normals3 tmpl3 0) :=
  ⟨(upsample_mesh_valid_pixels id normals3 normals3 [[0]] tmpl3 rfl).1,
   (upsample_mesh_valid_pixels id normals3 normals3 [[0]] tmpl3 rfl).2 0 (by simp [tmpl3])⟩

/-- C3: at the concrete input whose barycentric weights average two
opposite unit normals, the squared norm of the interpolated normal is
exactly zero, so the unguarded division of `upsample_mesh` (line 109 of
utils.py) divides by `np.linalg.norm = sqrt 0 = 0` and produces NaN in
IEEE arithmetic — there is no epsilon guard in the code. -/
theorem upsample_unguarded_zero_norm :
    baryInterp normals3 tmpl3 0 = ((0 : ℚ), (0 : ℚ), (0 : ℚ)) ∧
    upsample_norm_sq normals3 tmpl3 0 = 0 := by
  constructor <;>
    norm_num [upsample_norm_sq, baryInterp, dotQ, normals3, tmpl3, vget,
      Prod.smul_mk, Prod.mk_add_mk, smul_eq_mul, List.getD_cons_zero,
      List.getD_cons_succ]

/-- C9 counterexample: a vertex line with four coordinate values — a
coordinate count different from 3 — is not rejected: `load_obj` silently
keeps the first three values and succeeds. -/
theorem load_obj_accepts_overlong_vertex :
    load_obj_lines [ObjLine.vline [1, 2, 3, 4] "v 1 2 3 4"] =
      Except.ok ([[1, 2, 3]], []) := rfl

/-- C9 (amended): a vertex line fails — with the offending line content
in the error — exactly when it has fewer than 3 coordinate values, and a
texture line exactly when it has fewer than 2; lines with more values are
silently truncated to the first 3 (resp. 2) and accepted. -/
theorem load_obj_arity (coords : List ℚ) (raw : String) (rest : List ObjLine) :
    (coords.length < 3 →
      load_obj_lines (ObjLine.vline coords raw :: rest) =
        Except.error (vertexErrMsg raw)) ∧
    (3 ≤ coords.length →
      load_obj_lines (ObjLine.vline coords raw :: rest) =
        match load_obj_lines rest with
        | Except.ok (vs, ts) => Except.ok (coords.take 3 :: vs, ts)
        | Except.error e => Except.error e) ∧
    (coords.length < 2 →
      load_obj_lines (ObjLine.vtline coords raw :: rest) =
        Except.error (textureErrMsg raw)) ∧
    (2 ≤ coords.length →
      load_obj_lines (ObjLine.vtline coords raw :: rest) =
        match load_obj_lines rest with
        | Except.ok (vs, ts) => Except.ok (vs, coords.take 2 :: ts)
        | Except.error e => Except.error e) := by
  refine ⟨fun h => ?_, fun h => ?_, fun h => ?_, fun h => ?_⟩
  · simp only [load_obj_lines]
    rw [if_pos (by simp only [List.length_take]; omega)]
  · simp only [load_obj_lines]
    rw [if_neg (by simp only [List.length_take]; omega)]
  · simp only [load_obj_lines]
    rw [if_pos (by simp only [List.length_take]; omega)]
  · simp only [load_obj_lines]
    rw [if_neg (by simp only [List.length_take]; omega)]

/-- C9 witness: a vertex line with only two coordinate values makes the
load fail with an error carrying the line content. -/
theorem load_obj_arity_witness :
    load_obj_lines [ObjLine.vline [1, 2] "v 1 2"] =
      Except.error (vertexErrMsg "v 1 2") :=
  (load_obj_arity [1, 2] "v 1 2" []).1 (by simp)

/-- C10: every vector returned by `vertex_normals` is an accumulated
normal divided by a divisor that is at least `1e-6`, hence nonzero — the
normalization divides by the norm clamped below at epsilon `1e-6`, so no
output is NaN or Inf, including for vertices that belong to no face or
whose accumulated face normals sum to zero. -/
theorem vertex_normals_finite (sqrtQ : ℚ → ℚ) (v : List Vec3)
    (f : List (ℕ × ℕ × ℕ)) :
    ∀ x ∈ vertex_normals sqrtQ v f, ∃ n : Vec3,
      x = (1 / normalizeDenom sqrtQ n) • n ∧
      (1 : ℚ) / 1000000 ≤ normalizeDenom sqrtQ n ∧
      normalizeDenom sqrtQ n ≠ 0 := by
  intro x hx
  unfold vertex_normals at hx
  rw [List.mem_map] at hx
  obtain ⟨i, hi, hxi⟩ := hx
  refine ⟨accumNormals v f i, hxi.symm, ?_, ?_⟩
  · exact le_max_right _ _
  · have h1 : (0 : ℚ) < 1 / 1000000 := by norm_num
    exact ne_of_gt (lt_of_lt_of_le h1 (le_max_right _ _))

/-- C10 witness: the output normal of a one-vertex, zero-face mesh (whose
accumulated normal is the zero vector) is still a well-defined division
by a divisor of at least `1e-6`. -/
theorem vertex_normals_finite_witness :
    ∃ n : Vec3, ((0 : ℚ), (0 : ℚ), (0 : ℚ)) =
        (1 / normalizeDenom (fun _ => 0) n) • n ∧
      (1 : ℚ) / 1000000 ≤ normalizeDenom (fun _ => 0) n ∧
      normalizeDenom (fun _ => 0) n ≠ 0 :=
  vertex_normals_finite (fun _ => 0) [(0, 0, 0)] [] ((0 : ℚ), (0 : ℚ), (0 : ℚ))
    (by simp [vertex_normals, accumNormals, normalizeDenom, dotQ])
